import Mathlib

/-!
# cluster-api-provider-vsphere-static-ip: helper functions of `pkg/util` and the
  flag handling of `main`

A shallow embedding of `src/pkg/util/util.go` and of the configuration that
`src/main.go` assembles, together with the properties stated about them.

Conventions of the embedding

* a Go `string` is a Lean `String`;
* a Go `error` is `Option GoError`, `none` being `nil`;
* a Go method returning `(value, error)` is a pair: Go really returns both
  components, and the code under study inspects both;
* a Go slice is a `List` (the code never distinguishes `nil` from an empty slice);
* a Go `int` is an `Int`; every Go `int` is one, so a statement over all of `Int`
  covers the machine range.
-/

namespace StaticIP

/-! ## Data model -/

/-- Go error values. `errorString s` is what `fmt.Errorf` builds from a format
without a wrapping verb (and what `errors.New` builds); `foreign kind msg` stands
for an error value of any other dynamic type. -/
inductive GoError where
  | errorString (s : String)
  | foreign (kind : String) (msg : String)
  deriving DecidableEq, Repr

/-- The Go interface type `error`; `none` is `nil`. -/
abbrev error := Option GoError

/-- Errorf with a constant format, as in `fmt.Errorf("...")`. -/
def Errorf (msg : String) : error := some (GoError.errorString msg)

/-- The fields of `infrav1.NetworkDeviceSpec` read by `pkg/util`, with the
network name kept as a representative of the fields that are not read. -/
structure NetworkDeviceSpec where
  NetworkName : String
  DHCP4 : Bool
  DHCP6 : Bool
  deriving DecidableEq, Repr

/-- Modelled from the spec: the string-kinded named type in which the absent package
`pkg/ipam` hands out addresses, gateways, DNS servers and search domains
(`util.go` compares such values with `""` and converts them with `string(..)`). -/
structure IPAddressStr where
  val : String
  deriving DecidableEq, Repr

/-- The Go conversion `string(a)` of a string-kinded value. -/
def IPAddressStr.string (a : IPAddressStr) : String := a.val

/-- Modelled from the spec: the interface `ipam.IPAddress` of the absent package
`pkg/ipam`, as far as `util.go` calls it. Each field is what the getter of that
name returns, both components included. -/
structure IPAddress where
  GetAddress : IPAddressStr × error
  GetGateway : IPAddressStr × error
  GetMask : Int × error
  deriving DecidableEq, Repr

/-- Modelled from the spec: the interface `ipam.IPPool` of the absent package
`pkg/ipam`, as far as `util.go` calls it. -/
structure IPPool where
  GetDNSServers : List IPAddressStr × error
  GetSearchDomains : List IPAddressStr × error
  deriving DecidableEq, Repr

/-! ## `pkg/util/util.go` -/

/-- One iteration of the loop of `IsMachineIPAllocationDHCP`: a device with both
DHCP flags unset clears the flag, any other device leaves it as it is. -/
def dhcpLoopBody (isDHCP : Bool) (dev : NetworkDeviceSpec) : Bool :=
  if !dev.DHCP4 && !dev.DHCP6 then false else isDHCP

/-- The function `IsMachineIPAllocationDHCP`: the flag starts as `true` and the loop
body runs once per device, in slice order. -/
def IsMachineIPAllocationDHCP (devices : List NetworkDeviceSpec) : Bool :=
  devices.foldl dhcpLoopBody true

/-- The predicate `IsDeviceIPAllocationDHCP`. -/
def IsDeviceIPAllocationDHCP (device : NetworkDeviceSpec) : Bool :=
  if device.DHCP4 || device.DHCP6 then true else false

/-- The function `ValidateIP`: address first, then gateway. -/
def ValidateIP (ip : IPAddress) : error :=
  let (addr, err) := ip.GetAddress
  if addr.val == "" || err != none then
    if err != none then err
    else Errorf "invalid 'address' in IPAddress"
  else
    let (gat, err) := ip.GetGateway
    if gat.val == "" || err != none then
      if err != none then err
      else Errorf "invalid 'gateway' in IPAddress"
    else none

/-- The helper `GetAddress`. -/
def GetAddress (ip : IPAddress) : String :=
  let (a, err) := ip.GetAddress
  if err == none then a.string else ""

/-- The helper `GetGateway`. -/
def GetGateway (ip : IPAddress) : String :=
  let (g, err) := ip.GetGateway
  if err == none then g.string else ""

/-- The helper `GetMask`. -/
def GetMask (ip : IPAddress) : Int :=
  let (m, err) := ip.GetMask
  if err == none then m else 0

/-- The helper `GetDNSServers`: an empty slice, appended to once per element when
the pool's getter reports no error. -/
def GetDNSServers (pool : IPPool) : List String :=
  let dnsServers : List String := []
  let (dnsArr, err) := pool.GetDNSServers
  if err == none then
    dnsArr.foldl (fun acc d => acc ++ [d.string]) dnsServers
  else dnsServers

/-- The helper `GetSearchDomains`, the same loop over the search domains. -/
def GetSearchDomains (pool : IPPool) : List String :=
  let searchDomains : List String := []
  let (sdArr, err) := pool.GetSearchDomains
  if err == none then
    sdArr.foldl (fun acc d => acc ++ [d.string]) searchDomains
  else searchDomains

/-- The function `IgnoreNotFound`. The test `apierrors.IsNotFound` belongs to the
Kubernetes client library and is a parameter. -/
def IgnoreNotFound (IsNotFound : error → Bool) (err : error) : error :=
  if IsNotFound err then none else err

/-- A sample instance of the library test `IsNotFound`, used to run `IgnoreNotFound`
on concrete errors: the errors of kind `NotFound`. -/
def sampleIsNotFound (err : error) : Bool :=
  match err with
  | some (GoError.foreign kind _) => kind == "NotFound"
  | _ => false

/-! ### `GetFormattedClaimName`

`fmt.Sprintf("%s-%d", ownerName, deviceCount)` copies the string operand, then the
literal `-`, then the integer as the `fmt` package prints it under `%d`: decimal
digits written from the right end of a buffer, one per division by ten, and a
`-` in front of them when the operand is negative. -/

/-- The decimal loop of the `fmt` package's integer printer: while `u >= 10` the
digit `u - next*10` (with `next = u/10`) goes in front of the buffer's contents and
`u` becomes `next`; the last digit `u` goes in front when the loop ends. -/
def fmtDecimalLoop (u : Nat) (buf : List Char) : List Char :=
  if 10 ≤ u then
    let next := u / 10
    fmtDecimalLoop next (Nat.digitChar (u - next * 10) :: buf)
  else Nat.digitChar u :: buf
termination_by u
decreasing_by omega

/-- The verb `%d` applied to a signed integer: the digits of the magnitude,
preceded by `-` when the operand is negative. The library negates a negative operand
in unsigned 64-bit arithmetic, which yields the absolute value for every `int`, the
least one included. -/
def fmtInteger (v : Int) : List Char :=
  let negative := decide (v < 0)
  let u := v.natAbs
  let buf := fmtDecimalLoop u []
  if negative then '-' :: buf else buf

/-- The function `GetFormattedClaimName`, that is `fmt.Sprintf("%s-%d", ..)`. -/
def GetFormattedClaimName (ownerName : String) (deviceCount : Int) : String :=
  String.mk (ownerName.data ++ '-' :: fmtInteger deviceCount)

/-- Value of a string of decimal digits, read from the left. -/
def decimalValue (cs : List Char) : Nat :=
  cs.foldl (fun acc c => acc * 10 + (c.toNat - 48)) 0

/-! ## `main.go` -/

/-- The flag variables of `main`, as `flag.Parse` leaves them. The duration is in
nanoseconds, as in Go. -/
structure Flags where
  watchNamespace : String
  syncPeriod : Int
  metricsAddr : String
  enableLeaderElection : Bool
  maxConcurrentReconciles : Int
  deriving DecidableEq, Repr

/-- The defaults registered by the `flag.*Var` calls of `main`. -/
def defaultFlags : Flags :=
  { watchNamespace := ""
    syncPeriod := 10 * (60 * 1000000000)
    metricsAddr := ":8080"
    enableLeaderElection := false
    maxConcurrentReconciles := 2 }

/-- The value `metricsserver.Options` as `main` fills it. -/
structure MetricsOptions where
  BindAddress : String
  deriving DecidableEq, Repr

/-- The value `cache.Options` as `main` fills it; `DefaultNamespaces` lists the keys
of the map (each is bound to an empty `cache.Config`). -/
structure CacheOptions where
  SyncPeriod : Int
  DefaultNamespaces : List String
  deriving DecidableEq, Repr

/-- The value `ctrl.Options` as `main` fills it. `Scheme` lists the API groups that
`init` registers. Fields that `main` does not mention keep their zero value and are
not part of the record. -/
structure Options where
  Scheme : List String
  Metrics : MetricsOptions
  LeaderElection : Bool
  LeaderElectionID : String
  Cache : CacheOptions
  deriving DecidableEq, Repr

/-- The manager returned by `ctrl.NewManager`: determined by the options it is given
(the cluster connection is the same for every run). -/
structure Manager where
  opts : Options
  deriving DecidableEq, Repr

/-- A reconciler value as `main` builds it, for either controller. `Client` and
`Scheme` are those of the manager; `Log` is the chain of logger names. -/
structure Reconciler where
  Client : Manager
  Log : List String
  Scheme : List String
  deriving DecidableEq, Repr

/-- Everything `main` hands to the controller runtime: the manager options and, for
each controller, the reconciler and the manager passed to `SetupWithManager`. -/
structure ControllerConfiguration where
  opts : Options
  vsphereMachine : Reconciler × Manager
  vsphereCluster : Reconciler × Manager
  deriving DecidableEq, Repr

/-- The scheme assembled by `init`. -/
def scheme : List String :=
  ["clientgoscheme", "ipamv1", "infrav1", "clusterv1", "kcpv1"]

/-- The manager options of `main`: the literal, then the namespace restriction when
a namespace was given. -/
def managerOptions (f : Flags) : Options :=
  let opts : Options :=
    { Scheme := scheme
      Metrics := { BindAddress := f.metricsAddr }
      LeaderElection := f.enableLeaderElection
      LeaderElectionID := "controller-leader-election-capv-static-ip"
      Cache := { SyncPeriod := f.syncPeriod, DefaultNamespaces := [] } }
  if f.watchNamespace != "" then
    { opts with Cache := { opts.Cache with DefaultNamespaces := [f.watchNamespace] } }
  else opts

/-- The configuration that `main` builds from the parsed flags. -/
def mainConfiguration (f : Flags) : ControllerConfiguration :=
  let opts := managerOptions f
  let mgr : Manager := { opts := opts }
  { opts := opts
    vsphereMachine :=
      ({ Client := mgr, Log := ["controllers", "VSphereMachine"], Scheme := mgr.opts.Scheme }, mgr)
    vsphereCluster :=
      ({ Client := mgr, Log := ["controllers", "VSphereCluster"], Scheme := mgr.opts.Scheme }, mgr) }

/-! ## Theorems -/

theorem foldl_flag_false (devices : List NetworkDeviceSpec) :
    devices.foldl dhcpLoopBody false = false := by
  induction devices with
  | nil => rfl
  | cons d ds ih =>
    have h : dhcpLoopBody false d = false := by unfold dhcpLoopBody; split <;> rfl
    rw [List.foldl_cons, h, ih]

theorem isMachineDHCP_cons (d : NetworkDeviceSpec) (ds : List NetworkDeviceSpec) :
    IsMachineIPAllocationDHCP (d :: ds)
      = (IsDeviceIPAllocationDHCP d && IsMachineIPAllocationDHCP ds) := by
  unfold IsMachineIPAllocationDHCP IsDeviceIPAllocationDHCP
  rcases d with ⟨n, d4, d6⟩
  cases d4 <;> cases d6 <;> simp [dhcpLoopBody, foldl_flag_false]

theorem isMachineDHCP_eq_all (devices : List NetworkDeviceSpec) :
    IsMachineIPAllocationDHCP devices = devices.all IsDeviceIPAllocationDHCP := by
  induction devices with
  | nil => rfl
  | cons d ds ih => rw [isMachineDHCP_cons, ih]; rfl

/-! ### Decimal printing -/

theorem sub_div_mul (u : Nat) : u - u / 10 * 10 = u % 10 := by omega

theorem fmtDecimalLoop_lt (u : Nat) (buf : List Char) (h : u < 10) :
    fmtDecimalLoop u buf = Nat.digitChar u :: buf := by
  rw [fmtDecimalLoop, if_neg (by omega)]

theorem fmtDecimalLoop_ge (u : Nat) (buf : List Char) (h : 10 ≤ u) :
    fmtDecimalLoop u buf = fmtDecimalLoop (u / 10) (Nat.digitChar (u % 10) :: buf) := by
  rw [fmtDecimalLoop, if_pos h]
  simp only [sub_div_mul]

theorem fmtDecimalLoop_append (u : Nat) : ∀ buf : List Char,
    fmtDecimalLoop u buf = fmtDecimalLoop u [] ++ buf := by
  induction u using Nat.strong_induction_on with
  | _ u ih =>
    intro buf
    by_cases h : 10 ≤ u
    · rw [fmtDecimalLoop_ge u buf h, fmtDecimalLoop_ge u [] h,
        ih (u / 10) (by omega) (Nat.digitChar (u % 10) :: buf),
        ih (u / 10) (by omega) [Nat.digitChar (u % 10)]]
      simp
    · rw [fmtDecimalLoop_lt u buf (by omega), fmtDecimalLoop_lt u [] (by omega)]
      rfl

theorem fmtDecimalLoop_eq_toDigitsCore (fuel : Nat) : ∀ (u : Nat) (buf : List Char),
    u < fuel → fmtDecimalLoop u buf = Nat.toDigitsCore 10 fuel u buf := by
  induction fuel with
  | zero => intro u buf h; omega
  | succ fuel ih =>
    intro u buf h
    by_cases h10 : 10 ≤ u
    · rw [fmtDecimalLoop_ge u buf h10, Nat.toDigitsCore]
      have hne : u / 10 ≠ 0 := by omega
      simp only [hne, if_false]
      exact ih (u / 10) _ (by omega)
    · rw [fmtDecimalLoop_lt u buf (by omega), Nat.toDigitsCore]
      have h0 : u / 10 = 0 := by omega
      have hm : u % 10 = u := by omega
      simp [h0, hm]

theorem fmtDecimalLoop_eq_repr (u : Nat) : String.mk (fmtDecimalLoop u []) = Nat.repr u := by
  rw [fmtDecimalLoop_eq_toDigitsCore (u + 1) u [] (by omega)]
  rfl

theorem digitChar_facts : ∀ d : Fin 10,
    (Nat.digitChar d.val).toNat - 48 = d.val ∧ Nat.digitChar d.val ≠ '-' ∧
      (Nat.digitChar d.val).isDigit = true ∧ (Nat.digitChar d.val = '0' → d.val = 0) := by
  decide

theorem fmtDecimalLoop_snoc (u : Nat) (h : 10 ≤ u) :
    fmtDecimalLoop u [] = fmtDecimalLoop (u / 10) [] ++ [Nat.digitChar (u % 10)] := by
  rw [fmtDecimalLoop_ge u [] h, fmtDecimalLoop_append]

theorem fmtDecimalLoop_digits (u : Nat) :
    ∀ c ∈ fmtDecimalLoop u [], c ≠ '-' ∧ c.isDigit = true := by
  induction u using Nat.strong_induction_on with
  | _ u ih =>
    by_cases h : 10 ≤ u
    · rw [fmtDecimalLoop_snoc u h]
      intro c hc
      rcases List.mem_append.1 hc with hc | hc
      · exact ih (u / 10) (by omega) c hc
      · rw [List.mem_singleton] at hc
        subst hc
        have := digitChar_facts ⟨u % 10, by omega⟩
        exact ⟨this.2.1, this.2.2.1⟩
    · rw [fmtDecimalLoop_lt u [] (by omega)]
      intro c hc
      rw [List.mem_singleton] at hc
      subst hc
      have := digitChar_facts ⟨u, by omega⟩
      exact ⟨this.2.1, this.2.2.1⟩

theorem decimalValue_snoc (cs : List Char) (c : Char) :
    decimalValue (cs ++ [c]) = decimalValue cs * 10 + (c.toNat - 48) := by
  simp [decimalValue, List.foldl_append]

theorem decimalValue_fmtDecimalLoop (u : Nat) : decimalValue (fmtDecimalLoop u []) = u := by
  induction u using Nat.strong_induction_on with
  | _ u ih =>
    by_cases h : 10 ≤ u
    · have hd : (Nat.digitChar (u % 10)).toNat - 48 = u % 10 :=
        (digitChar_facts ⟨u % 10, by omega⟩).1
      rw [fmtDecimalLoop_snoc u h, decimalValue_snoc, ih (u / 10) (by omega), hd]
      omega
    · rw [fmtDecimalLoop_lt u [] (by omega)]
      have := (digitChar_facts ⟨u, by omega⟩).1
      simpa [decimalValue] using this

theorem fmtDecimalLoop_head (u : Nat) :
    ∃ c cs, fmtDecimalLoop u [] = c :: cs ∧ (c = '0' → u = 0) := by
  induction u using Nat.strong_induction_on with
  | _ u ih =>
    by_cases h : 10 ≤ u
    · obtain ⟨c, cs, hcs, h0⟩ := ih (u / 10) (by omega)
      refine ⟨c, cs ++ [Nat.digitChar (u % 10)], ?_, ?_⟩
      · rw [fmtDecimalLoop_snoc u h, hcs]; rfl
      · intro hc; have := h0 hc; omega
    · exact ⟨Nat.digitChar u, [], fmtDecimalLoop_lt u [] (by omega),
        (digitChar_facts ⟨u, by omega⟩).2.2.2⟩

theorem append_cons_inj_left {α : Type} (c : α) : ∀ (x x' y y' : List α),
    c ∉ x → c ∉ x' → x ++ c :: y = x' ++ c :: y' → x = x' ∧ y = y' := by
  intro x
  induction x with
  | nil =>
    intro x' y y' _ hx' h
    cases x' with
    | nil => simpa using h
    | cons a t =>
      simp only [List.nil_append, List.cons_append, List.cons.injEq] at h
      exact absurd (h.1 ▸ List.mem_cons_self _ _) hx'
  | cons a t ih =>
    intro x' y y' hx hx' h
    cases x' with
    | nil =>
      simp only [List.nil_append, List.cons_append, List.cons.injEq] at h
      exact absurd (h.1 ▸ List.mem_cons_self _ _) hx
    | cons b t' =>
      simp only [List.cons_append, List.cons.injEq] at h
      have := ih t' y y' (fun hm => hx (List.mem_cons_of_mem _ hm))
        (fun hm => hx' (List.mem_cons_of_mem _ hm)) h.2
      exact ⟨by rw [h.1, this.1], this.2⟩

theorem append_cons_inj_right {α : Type} (c : α) (x x' y y' : List α)
    (hy : c ∉ y) (hy' : c ∉ y') (h : x ++ c :: y = x' ++ c :: y') : x = x' ∧ y = y' := by
  have hr := congrArg List.reverse h
  simp only [List.reverse_append, List.reverse_cons, List.append_assoc,
    List.singleton_append] at hr
  have := append_cons_inj_left c y.reverse y'.reverse x.reverse x'.reverse
    (by simpa using hy) (by simpa using hy') hr
  exact ⟨List.reverse_injective this.2, List.reverse_injective this.1⟩

theorem fmtDecimalLoop_injective (u u' : Nat)
    (h : fmtDecimalLoop u [] = fmtDecimalLoop u' []) : u = u' := by
  rw [← decimalValue_fmtDecimalLoop u, ← decimalValue_fmtDecimalLoop u', h]

/-! ### Validation -/

theorem ValidateIP_eq (a g : IPAddressStr) (ea eg : error) (m : Int × error) :
    ValidateIP { GetAddress := (a, ea), GetGateway := (g, eg), GetMask := m } =
      match ea with
      | some e => some e
      | none =>
        if a.val = "" then Errorf "invalid 'address' in IPAddress"
        else match eg with
          | some e => some e
          | none => if g.val = "" then Errorf "invalid 'gateway' in IPAddress" else none := by
  cases ea <;> cases eg <;> by_cases ha : a.val = "" <;> by_cases hg : g.val = "" <;>
    simp [ValidateIP, ha, hg]

/-! ### Loops over the pool's lists -/

theorem foldl_append_singleton (f : IPAddressStr → String) (l : List IPAddressStr) :
    ∀ acc : List String, l.foldl (fun acc d => acc ++ [f d]) acc = acc ++ l.map f := by
  induction l with
  | nil => intro acc; simp
  | cons d ds ih => intro acc; simp [ih]

/-! ## The stated properties -/

/-- C1: for every list of devices, the empty one included, the function
`IsMachineIPAllocationDHCP` answers `true` exactly when `IsDeviceIPAllocationDHCP`
holds of every device, that is when each has `DHCP4` or `DHCP6` set; it answers `false`
exactly when some device has both unset; and the answer is the same for every
reordering of the list. -/
theorem IsMachineIPAllocationDHCP_iff_all (devices : List NetworkDeviceSpec) :
    (IsMachineIPAllocationDHCP devices = true ↔
        ∀ d ∈ devices, IsDeviceIPAllocationDHCP d = true) ∧
    (∀ d, IsDeviceIPAllocationDHCP d = true ↔ (d.DHCP4 = true ∨ d.DHCP6 = true)) ∧
    (IsMachineIPAllocationDHCP devices = false ↔
        ∃ d ∈ devices, d.DHCP4 = false ∧ d.DHCP6 = false) ∧
    IsMachineIPAllocationDHCP [] = true ∧
    (∀ devices', devices'.Perm devices →
        IsMachineIPAllocationDHCP devices' = IsMachineIPAllocationDHCP devices) := by
  have hdev : ∀ d, IsDeviceIPAllocationDHCP d = true ↔ (d.DHCP4 = true ∨ d.DHCP6 = true) := by
    intro d
    simp [IsDeviceIPAllocationDHCP]
  have hall : ∀ l : List NetworkDeviceSpec, IsMachineIPAllocationDHCP l = true ↔
      ∀ d ∈ l, IsDeviceIPAllocationDHCP d = true := by
    intro l
    rw [isMachineDHCP_eq_all, List.all_eq_true]
  refine ⟨hall devices, hdev, ?_, rfl, ?_⟩
  · rw [← Bool.not_eq_true, hall]
    constructor
    · intro h
      by_contra hno
      apply h
      intro d hd
      by_contra hd'
      apply hno
      refine ⟨d, hd, ?_⟩
      rw [hdev] at hd'
      cases h4 : d.DHCP4 <;> cases h6 : d.DHCP6 <;> simp_all
    · rintro ⟨d, hd, h4, h6⟩ h
      have := (hdev d).1 (h d hd)
      simp [h4, h6] at this
  · intro devices' hperm
    rw [Bool.eq_iff_iff, hall, hall]
    exact ⟨fun h d hd => h d (hperm.mem_iff.2 hd), fun h d hd => h d (hperm.mem_iff.1 hd)⟩

/-- C1, applied: a static device makes the owner non-DHCP wherever it stands in the
list. -/
theorem IsMachineIPAllocationDHCP_iff_all_witness :
    List.Perm [⟨"b", false, false⟩, ⟨"a", true, false⟩]
        [(⟨"a", true, false⟩ : NetworkDeviceSpec), ⟨"b", false, false⟩] ∧
      IsMachineIPAllocationDHCP [⟨"b", false, false⟩, ⟨"a", true, false⟩] =
        IsMachineIPAllocationDHCP [⟨"a", true, false⟩, ⟨"b", false, false⟩] :=
  ⟨List.Perm.swap _ _ _,
    (IsMachineIPAllocationDHCP_iff_all [⟨"a", true, false⟩, ⟨"b", false, false⟩]).2.2.2.2
      [⟨"b", false, false⟩, ⟨"a", true, false⟩] (List.Perm.swap _ _ _)⟩

/-- C4: the function `ValidateIP` returns no error exactly when the address getter
succeeds with a non-empty address and the gateway getter succeeds with a non-empty
gateway; otherwise it returns an error; and what the mask getter returns never changes
the result. -/
theorem ValidateIP_nil_iff (ip : IPAddress) :
    (ValidateIP ip = none ↔
        (ip.GetAddress.2 = none ∧ ip.GetAddress.1.val ≠ "" ∧
          ip.GetGateway.2 = none ∧ ip.GetGateway.1.val ≠ "")) ∧
    ((ValidateIP ip).isSome = true ↔
        (ip.GetAddress.2 ≠ none ∨ ip.GetAddress.1.val = "" ∨
          ip.GetGateway.2 ≠ none ∨ ip.GetGateway.1.val = "")) ∧
    (∀ m : Int × error, ValidateIP { ip with GetMask := m } = ValidateIP ip) := by
  rcases ip with ⟨⟨a, ea⟩, ⟨g, eg⟩, m⟩
  refine ⟨?_, ?_, fun m' => ?_⟩
  · rw [ValidateIP_eq]
    cases ea <;> cases eg <;> by_cases ha : a.val = "" <;> by_cases hg : g.val = "" <;>
      simp [ha, hg, Errorf]
  · rw [ValidateIP_eq]
    cases ea <;> cases eg <;> by_cases ha : a.val = "" <;> by_cases hg : g.val = "" <;>
      simp [ha, hg, Errorf]
  · rw [ValidateIP_eq, ValidateIP_eq]

/-- C5: for any implementation of the library test `IsNotFound`, the function
`IgnoreNotFound` returns `nil` exactly when its argument is `nil` or is a NotFound
error, returns every other error unchanged, and is idempotent. -/
theorem IgnoreNotFound_spec (IsNotFound : error → Bool) (err : error) :
    (IgnoreNotFound IsNotFound err = none ↔ (err = none ∨ IsNotFound err = true)) ∧
    (IsNotFound err = true → IgnoreNotFound IsNotFound err = none) ∧
    (¬ (err = none ∨ IsNotFound err = true) → IgnoreNotFound IsNotFound err = err) ∧
    IgnoreNotFound IsNotFound (IgnoreNotFound IsNotFound err)
      = IgnoreNotFound IsNotFound err := by
  unfold IgnoreNotFound
  by_cases h : IsNotFound err = true
  · simp [h]
  · by_cases h0 : IsNotFound none = true <;> cases err <;> simp_all

/-- C5, applied: a NotFound error is swallowed, a conflict is passed on. -/
theorem IgnoreNotFound_spec_witness :
    (sampleIsNotFound (some (GoError.foreign "NotFound" "pool p1 not found")) = true ∧
      IgnoreNotFound sampleIsNotFound
        (some (GoError.foreign "NotFound" "pool p1 not found")) = none) ∧
    (¬ ((some (GoError.foreign "Conflict" "object modified") : error) = none ∨
        sampleIsNotFound (some (GoError.foreign "Conflict" "object modified")) = true) ∧
      IgnoreNotFound sampleIsNotFound (some (GoError.foreign "Conflict" "object modified"))
        = some (GoError.foreign "Conflict" "object modified")) :=
  ⟨⟨by decide, (IgnoreNotFound_spec sampleIsNotFound _).2.1 (by decide)⟩,
    ⟨by decide, (IgnoreNotFound_spec sampleIsNotFound _).2.2.1 (by decide)⟩⟩

/-- C6: when the pool's getter succeeds with a list, the helpers `GetDNSServers` and
`GetSearchDomains` return the list of the string values of its elements: same length,
same order, element by element; when the getter fails they return the empty list. -/
theorem GetDNSServers_GetSearchDomains_spec (pool : IPPool) :
    (pool.GetDNSServers.2 = none →
        GetDNSServers pool = pool.GetDNSServers.1.map IPAddressStr.string ∧
        (GetDNSServers pool).length = pool.GetDNSServers.1.length ∧
        ∀ k : Nat, (GetDNSServers pool)[k]? =
          (pool.GetDNSServers.1[k]?).map IPAddressStr.string) ∧
    (pool.GetDNSServers.2 ≠ none → GetDNSServers pool = []) ∧
    (pool.GetSearchDomains.2 = none →
        GetSearchDomains pool = pool.GetSearchDomains.1.map IPAddressStr.string ∧
        (GetSearchDomains pool).length = pool.GetSearchDomains.1.length ∧
        ∀ k : Nat, (GetSearchDomains pool)[k]? =
          (pool.GetSearchDomains.1[k]?).map IPAddressStr.string) ∧
    (pool.GetSearchDomains.2 ≠ none → GetSearchDomains pool = []) := by
  rcases pool with ⟨⟨dns, e1⟩, ⟨sd, e2⟩⟩
  have h1 : e1 = none → GetDNSServers ⟨(dns, e1), (sd, e2)⟩ = dns.map IPAddressStr.string := by
    intro h
    simp [GetDNSServers, h, foldl_append_singleton]
  have h2 : e2 = none →
      GetSearchDomains ⟨(dns, e1), (sd, e2)⟩ = sd.map IPAddressStr.string := by
    intro h
    simp [GetSearchDomains, h, foldl_append_singleton]
  refine ⟨fun h => ?_, fun h => ?_, fun h => ?_, fun h => ?_⟩
  · rw [h1 h]
    exact ⟨rfl, List.length_map _ _, fun k => List.getElem?_map _ _ _⟩
  · simp only [ne_eq] at h
    simp [GetDNSServers, h]
  · rw [h2 h]
    exact ⟨rfl, List.length_map _ _, fun k => List.getElem?_map _ _ _⟩
  · simp only [ne_eq] at h
    simp [GetSearchDomains, h]

/-- C6, applied: a pool with a repeated DNS server and a failing search-domain
getter that still hands back a list. -/
theorem GetDNSServers_GetSearchDomains_spec_witness :
    GetDNSServers ⟨([⟨"8.8.8.8"⟩, ⟨"1.1.1.1"⟩, ⟨"8.8.8.8"⟩], none),
        ([⟨"lab.local"⟩], some (GoError.foreign "timeout" "store unreachable"))⟩
      = ["8.8.8.8", "1.1.1.1", "8.8.8.8"] ∧
    GetSearchDomains ⟨([⟨"8.8.8.8"⟩, ⟨"1.1.1.1"⟩, ⟨"8.8.8.8"⟩], none),
        ([⟨"lab.local"⟩], some (GoError.foreign "timeout" "store unreachable"))⟩ = [] :=
  ⟨((GetDNSServers_GetSearchDomains_spec _).1 rfl).1,
    (GetDNSServers_GetSearchDomains_spec _).2.2.2 (by decide)⟩

/-- C9: when `ValidateIP` returns no error, the helpers `GetAddress` and `GetGateway`
return non-empty strings, namely the values handed out by the getters; and when a
getter fails, the helper of that name returns its zero value (`""` for `GetAddress` and
`GetGateway`, `0` for `GetMask`). -/
theorem ValidateIP_nil_helpers (ip : IPAddress) :
    (ValidateIP ip = none →
        GetAddress ip ≠ "" ∧ GetGateway ip ≠ "" ∧
        GetAddress ip = ip.GetAddress.1.string ∧ GetGateway ip = ip.GetGateway.1.string) ∧
    (ip.GetAddress.2 ≠ none → GetAddress ip = "") ∧
    (ip.GetGateway.2 ≠ none → GetGateway ip = "") ∧
    (ip.GetMask.2 ≠ none → GetMask ip = 0) := by
  rcases ip with ⟨⟨a, ea⟩, ⟨g, eg⟩, ⟨m, em⟩⟩
  refine ⟨?_, ?_, ?_, ?_⟩
  · rw [ValidateIP_eq]
    cases ea <;> cases eg <;> by_cases ha : a.val = "" <;> by_cases hg : g.val = "" <;>
      simp [ha, hg, Errorf, GetAddress, GetGateway, IPAddressStr.string]
  · intro h
    simp only [ne_eq] at h
    simp [GetAddress, h]
  · intro h
    simp only [ne_eq] at h
    simp [GetGateway, h]
  · intro h
    simp only [ne_eq] at h
    simp [GetMask, h]

/-- C9, applied: a valid address, and an address whose getters all fail while still
handing back values. -/
theorem ValidateIP_nil_helpers_witness :
    (ValidateIP ⟨(⟨"10.0.0.1"⟩, none), (⟨"10.0.0.254"⟩, none), (24, none)⟩ = none ∧
      GetAddress ⟨(⟨"10.0.0.1"⟩, none), (⟨"10.0.0.254"⟩, none), (24, none)⟩ = "10.0.0.1" ∧
      GetGateway ⟨(⟨"10.0.0.1"⟩, none), (⟨"10.0.0.254"⟩, none), (24, none)⟩
        = "10.0.0.254") ∧
    (GetAddress ⟨(⟨"10.0.0.1"⟩, some (GoError.foreign "e" "a")),
        (⟨"10.0.0.254"⟩, some (GoError.foreign "e" "g")),
        (24, some (GoError.foreign "e" "m"))⟩ = "" ∧
      GetGateway ⟨(⟨"10.0.0.1"⟩, some (GoError.foreign "e" "a")),
        (⟨"10.0.0.254"⟩, some (GoError.foreign "e" "g")),
        (24, some (GoError.foreign "e" "m"))⟩ = "" ∧
      GetMask ⟨(⟨"10.0.0.1"⟩, some (GoError.foreign "e" "a")),
        (⟨"10.0.0.254"⟩, some (GoError.foreign "e" "g")),
        (24, some (GoError.foreign "e" "m"))⟩ = 0) :=
  ⟨⟨by decide,
      ((ValidateIP_nil_helpers
        ⟨(⟨"10.0.0.1"⟩, none), (⟨"10.0.0.254"⟩, none), (24, none)⟩).1 (by decide)).2.2.1,
      ((ValidateIP_nil_helpers
        ⟨(⟨"10.0.0.1"⟩, none), (⟨"10.0.0.254"⟩, none), (24, none)⟩).1 (by decide)).2.2.2⟩,
    ⟨(ValidateIP_nil_helpers _).2.1 (by decide),
      (ValidateIP_nil_helpers _).2.2.1 (by decide),
      (ValidateIP_nil_helpers _).2.2.2 (by decide)⟩⟩

/-- C10: the function `ValidateIP` looks at the address first. An error `e` of the
address getter is returned as it is; an address that is present but empty gives the
error with the message `invalid 'address' in IPAddress`; in both cases the gateway getter
has no influence. Only with a non-empty address does the gateway count: an error of the
gateway getter is returned as it is, and an empty gateway gives the error with the
message `invalid 'gateway' in IPAddress`. -/
theorem ValidateIP_order (ip : IPAddress) :
    (∀ e, ip.GetAddress.2 = some e → ValidateIP ip = some e) ∧
    (ip.GetAddress.2 = none → ip.GetAddress.1.val = "" →
        ValidateIP ip = some (GoError.errorString "invalid 'address' in IPAddress")) ∧
    ((ip.GetAddress.2 ≠ none ∨ ip.GetAddress.1.val = "") →
        ∀ g : IPAddressStr × error, ValidateIP { ip with GetGateway := g } = ValidateIP ip) ∧
    (ip.GetAddress.2 = none → ip.GetAddress.1.val ≠ "" →
        ∀ e, ip.GetGateway.2 = some e → ValidateIP ip = some e) ∧
    (ip.GetAddress.2 = none → ip.GetAddress.1.val ≠ "" →
        ip.GetGateway.2 = none → ip.GetGateway.1.val = "" →
        ValidateIP ip = some (GoError.errorString "invalid 'gateway' in IPAddress")) := by
  rcases ip with ⟨⟨a, ea⟩, ⟨g, eg⟩, m⟩
  refine ⟨?_, ?_, ?_, ?_, ?_⟩
  · intro e h
    simp only at h
    rw [ValidateIP_eq, h]
  · intro h ha
    simp only at h ha
    rw [ValidateIP_eq, h]
    simp [ha, Errorf]
  · rintro h ⟨g', eg'⟩
    rw [ValidateIP_eq, ValidateIP_eq]
    cases ea with
    | some e => rfl
    | none =>
      have ha : a.val = "" := by simpa using h
      simp [ha]
  · intro h ha e hg
    simp only at h ha hg
    rw [ValidateIP_eq, h, hg]
    simp [ha]
  · intro h ha hg hgv
    simp only at h ha hg hgv
    rw [ValidateIP_eq, h, hg]
    simp [ha, hgv, Errorf]

/-- C10, applied: a failing address getter wins over a failing gateway getter, an
empty address over an empty gateway, and the gateway's own failures show once the
address is in order. -/
theorem ValidateIP_order_witness :
    ValidateIP ⟨(⟨"10.0.0.1"⟩, some (GoError.foreign "e" "addr")),
        (⟨""⟩, some (GoError.foreign "e" "gw")), (24, none)⟩
      = some (GoError.foreign "e" "addr") ∧
    ValidateIP ⟨(⟨""⟩, none), (⟨""⟩, some (GoError.foreign "e" "gw")), (24, none)⟩
      = some (GoError.errorString "invalid 'address' in IPAddress") ∧
    ValidateIP { (⟨(⟨""⟩, none), (⟨"10.0.0.254"⟩, none), (24, none)⟩ : IPAddress) with
        GetGateway := (⟨""⟩, some (GoError.foreign "e" "gw")) }
      = ValidateIP ⟨(⟨""⟩, none), (⟨"10.0.0.254"⟩, none), (24, none)⟩ ∧
    ValidateIP ⟨(⟨"10.0.0.1"⟩, none), (⟨"10.0.0.254"⟩, some (GoError.foreign "e" "gw")),
        (24, none)⟩
      = some (GoError.foreign "e" "gw") ∧
    ValidateIP ⟨(⟨"10.0.0.1"⟩, none), (⟨""⟩, none), (24, none)⟩
      = some (GoError.errorString "invalid 'gateway' in IPAddress") :=
  ⟨(ValidateIP_order _).1 _ rfl,
    (ValidateIP_order _).2.1 rfl rfl,
    (ValidateIP_order _).2.2.1 (Or.inr rfl) _,
    (ValidateIP_order _).2.2.2.1 rfl (by decide) _ rfl,
    (ValidateIP_order _).2.2.2.2 rfl (by decide) rfl rfl⟩

/-- C7: the configuration that `main` builds does not depend on the value of
`--max-concurrency`: the default is `2`, yet any two runs that differ only in that
flag hand the same manager options and the same reconcilers to the controller
runtime, for instance the runs with `2` and with `5`. -/
theorem mainConfiguration_ignores_maxConcurrency :
    defaultFlags.maxConcurrentReconciles = 2 ∧
    mainConfiguration { defaultFlags with maxConcurrentReconciles := 5 }
      = mainConfiguration defaultFlags ∧
    (∀ (f : Flags) (n : Int),
      mainConfiguration { f with maxConcurrentReconciles := n } = mainConfiguration f) :=
  ⟨rfl, rfl, fun _ _ => rfl⟩

/-- C3: the result of `GetFormattedClaimName` is the owner name, one `-`, and the
decimal representation of the index: the library's rendering of the integer, which is
an optional sign followed by digits whose value is the magnitude and which start with
`0` only for the index zero. The owner name is a prefix of the result, and owner `m1`
with index `0` gives `m1-0`. -/
theorem GetFormattedClaimName_spec (ownerName : String) (i : Int) :
    GetFormattedClaimName ownerName i = ownerName ++ "-" ++ toString i ∧
    (∃ ds : List Char,
      GetFormattedClaimName ownerName i
        = ownerName ++ "-" ++ (if i < 0 then "-" else "") ++ String.mk ds ∧
      (∀ c ∈ ds, c.isDigit = true) ∧ decimalValue ds = i.natAbs ∧
      (ds.head? = some '0' → ds = ['0'] ∧ i = 0)) ∧
    ownerName.data <+: (GetFormattedClaimName ownerName i).data ∧
    GetFormattedClaimName "m1" 0 = "m1-0" := by
  refine ⟨?_, ⟨fmtDecimalLoop i.natAbs [], ?_, ?_, ?_, ?_⟩, ?_, ?_⟩
  · apply String.ext
    cases i with
    | ofNat n =>
      have h := congrArg String.data (fmtDecimalLoop_eq_repr n)
      simp only [GetFormattedClaimName, fmtInteger, String.data_append]
      simp only [toString, Int.natAbs_ofNat]
      rw [← h]
      simp
    | negSucc n =>
      have h := congrArg String.data (fmtDecimalLoop_eq_repr (Nat.succ n))
      simp only [GetFormattedClaimName, fmtInteger, toString, Int.natAbs_negSucc,
        String.data_append]
      rw [← h]
      simp [Int.negSucc_lt_zero]
  · apply String.ext
    by_cases h : i < 0 <;> simp [GetFormattedClaimName, fmtInteger, h]
  · exact fun c hc => (fmtDecimalLoop_digits _ c hc).2
  · exact decimalValue_fmtDecimalLoop _
  · intro h
    obtain ⟨c, cs, hcs, h0⟩ := fmtDecimalLoop_head i.natAbs
    rw [hcs] at h
    simp only [List.head?_cons, Option.some.injEq] at h
    have hz := h0 h
    rw [hz]
    exact ⟨by rw [fmtDecimalLoop_lt 0 [] (by omega)]; rfl, Int.natAbs_eq_zero.1 hz⟩
  · exact ⟨'-' :: fmtInteger i, rfl⟩
  · simp [GetFormattedClaimName, fmtInteger, fmtDecimalLoop]
    rfl

/-- For indices of the same sign the last `-` of a claim name is the separator (or the
sign right after it), so two claim names are equal exactly when the owner names are
equal and the indices are equal. -/
theorem claimName_eq_iff_of_same_sign (o1 o2 : String) (i1 i2 : Int)
    (hs : i1 < 0 ↔ i2 < 0) :
    GetFormattedClaimName o1 i1 = GetFormattedClaimName o2 i2 ↔ (o1 = o2 ∧ i1 = i2) := by
  constructor
  · intro h
    have hl : o1.data ++ '-' :: fmtInteger i1 = o2.data ++ '-' :: fmtInteger i2 :=
      congrArg String.data h
    have hd : ∀ u : Nat, '-' ∉ fmtDecimalLoop u [] :=
      fun u hm => (fmtDecimalLoop_digits u _ hm).1 rfl
    by_cases hneg : i1 < 0
    · have hneg2 : i2 < 0 := hs.1 hneg
      simp only [fmtInteger, hneg, hneg2, decide_True, if_true] at hl
      have hl' : (o1.data ++ ['-']) ++ '-' :: fmtDecimalLoop i1.natAbs []
          = (o2.data ++ ['-']) ++ '-' :: fmtDecimalLoop i2.natAbs [] := by
        simpa using hl
      obtain ⟨ho, hdig⟩ := append_cons_inj_right '-' _ _ _ _ (hd _) (hd _) hl'
      have habs := fmtDecimalLoop_injective _ _ hdig
      exact ⟨String.ext (List.append_cancel_right ho), by omega⟩
    · have hneg2 : ¬ i2 < 0 := fun h2 => hneg (hs.2 h2)
      simp only [fmtInteger, hneg, hneg2, decide_False, Bool.false_eq_true, if_false] at hl
      obtain ⟨ho, hdig⟩ := append_cons_inj_right '-' _ _ _ _ (hd _) (hd _) hl
      have habs := fmtDecimalLoop_injective _ _ hdig
      exact ⟨String.ext ho, by omega⟩
  · rintro ⟨rfl, rfl⟩
    rfl

/-- C2: the claim name is unique per owner and device index. For any owner names
`o1`, `o2` and any device indices `i1`, `i2` (zero-based, hence non-negative), equal
claim names force equal owner names and equal indices; and the same owner name and
index always give the same claim name. -/
theorem GetFormattedClaimName_unique (o1 o2 : String) (i1 i2 : Int)
    (h1 : 0 ≤ i1) (h2 : 0 ≤ i2) :
    (GetFormattedClaimName o1 i1 = GetFormattedClaimName o2 i2 → o1 = o2 ∧ i1 = i2) ∧
    (o1 = o2 ∧ i1 = i2 → GetFormattedClaimName o1 i1 = GetFormattedClaimName o2 i2) := by
  have hs : i1 < 0 ↔ i2 < 0 := by
    constructor <;> intro h <;> omega
  exact ⟨(claimName_eq_iff_of_same_sign o1 o2 i1 i2 hs).1,
    (claimName_eq_iff_of_same_sign o1 o2 i1 i2 hs).2⟩

/-- C2, applied: owner `m-1` with index `2` and owner `m` with index `12` have
different claim names, `m-1-2` and `m-12`, and the first device of owner `m1` has one
claim name, `m1-0`, however often it is derived. -/
theorem GetFormattedClaimName_unique_witness :
    ((0 : Int) ≤ 2 ∧ (0 : Int) ≤ 12) ∧
    GetFormattedClaimName "m-1" 2 ≠ GetFormattedClaimName "m" 12 ∧
    GetFormattedClaimName "m1" 0 = GetFormattedClaimName "m1" 0 :=
  ⟨⟨by decide, by decide⟩,
    fun h => absurd ((GetFormattedClaimName_unique "m-1" "m" 2 12
      (by decide) (by decide)).1 h).1 (by decide),
    (GetFormattedClaimName_unique "m1" "m1" 0 0 (by decide) (by decide)).2 ⟨rfl, rfl⟩⟩

end StaticIP
